import Mathlib

/-!
Verification development for the WRadar media download manager
(`src/media/manager.js`, `src/media/downloader.js`, `src/media/message-media.js`).

The JavaScript code is shallowly embedded: every mutable structure of the
`MediaManager` / `MediaDownloader` objects becomes a field of an explicit
state record, and every method becomes a pure function from state (plus the
current clock value `now`, standing for `Date.now()`) to state.  JS `Map`s
are modelled as association lists in insertion order (`Map.set` on a fresh
key appends at the tail, on an existing key updates in place; `Map.delete`
removes the entry; iteration order is list order), JS `Set`s as lists
without duplicates, and JS string/number truthiness is modelled explicitly
(`none` and `some ""` are falsy for strings, `0` is falsy for numbers).
The external fetch driver (`page.evaluate` / the browser download
strategies) is modelled as an oracle `Nat → Option Media` giving the result
of each attempt, and SHA-256 hashing (`crypto.createHash('sha256')`) as an
abstract function parameter `List Nat → String` from byte contents to
base64 digests.  Statistics counters that no theorem mentions, console
logging, and filesystem directory bookkeeping are omitted.
-/

/-- JS truthiness of an optional string: `undefined`/`null` and `""` are falsy. -/
def truthyS : Option String → Bool
  | none => false
  | some s => s ≠ ""

/-- JS `a || b` on optional strings (`a` wins when truthy). -/
def jsOr (a b : Option String) : Option String :=
  if truthyS a then a else b

/-- JS `String.prototype.includes`: `pat` occurs contiguously in `hay`. -/
def strIncludes (hay pat : String) : Bool :=
  hay.toList.tails.any (fun suf => pat.toList.isPrefixOf suf)

/-- JS `Map.prototype.set`: update in place if the key is present, else append. -/
def mapSet {α : Type} (m : List (String × α)) (k : String) (v : α) : List (String × α) :=
  if (m.lookup k).isSome then m.map (fun p => if p.1 = k then (k, v) else p)
  else m ++ [(k, v)]

/-- JS `Map.prototype.delete`. -/
def mapDelete {α : Type} (m : List (String × α)) (k : String) : List (String × α) :=
  m.filter (fun p => p.1 ≠ k)

/-- JS `Set.prototype.add`. -/
def setAdd (s : List String) (x : String) : List String :=
  if s.contains x then s else s ++ [x]

/-- JS `Set.prototype.delete`. -/
def setDelete (s : List String) (x : String) : List String :=
  s.filter (fun y => y ≠ x)

/-- The `MEDIA_STATES` enum from `manager.js`. -/
inductive MediaState
  | pending
  | downloading
  | downloaded
  | error
  deriving DecidableEq, Repr

/-- The `CIRCUIT_BREAKER_STATES` enum from `manager.js` (`open'` is `OPEN`). -/
inductive CBState
  | closed
  | open'
  | halfOpen
  deriving DecidableEq, Repr

/-- The media-bearing fields of `evt.rawData` that `manager.js` and
`downloader.js` read.  `msgId` abstracts `_getMessageId(rawData)` /
`message.id._serialized` (the serialized source identifier); `fromId` and
`tSec` are `message.from._serialized` and `message.t` (seconds). -/
structure RawData where
  type : Option String
  mediaType : Option String
  mimetype : Option String
  size : Option Nat
  mediaKey : Option String
  mediaHash : Option String
  filehash : Option String
  clientUrl : Option String
  directPath : Option String
  msgId : Option String
  fromId : Option String
  tSec : Nat
  deriving DecidableEq, Repr

/-- The item object built in `maybeEnrich` and pushed by `_enqueue`. -/
structure QueueItem where
  messageId : String
  rawData : RawData
  timestamp : Nat
  retries : Nat
  deriving DecidableEq, Repr

/-- A value of the `states` map: `{state, timestamp, messageId}` plus the
`error` field set on terminal failure (the `result` descriptor of the
downloaded branch is not modelled). -/
structure ItemState where
  state : MediaState
  timestamp : Nat
  messageId : String
  errorMsg : Option String
  deriving DecidableEq, Repr

/-- The `this.circuitBreaker` record from `manager.js`. -/
structure CircuitBreaker where
  state : CBState
  failures : Nat
  lastFailureTime : Nat
  successes : Nat
  deriving DecidableEq, Repr

/-- The `MediaManager` configuration after construction.  `maxFileSize` is
kept in parsed form (`_parseFileSize` maps the size string to a byte count;
`none` models the `Infinity` returned for an unparsable/absent string). -/
structure MediaConfig where
  enabled : Bool
  downloadTypes : List String
  maxFileSize : Option Nat
  concurrentDownloads : Nat
  maxQueueSize : Nat
  retryAttempts : Nat
  retryDelayMs : Nat
  batchProcessSize : Nat
  allowedMimeTypes : List String
  enableDeduplication : Bool
  enableIntegrityCheck : Bool
  cleanupCompletedAfterMs : Nat
  circuitBreakerThreshold : Nat
  circuitBreakerResetMs : Nat
  deriving DecidableEq, Repr

/-- The mutable state of a `MediaManager` instance.  `errorRecords` records
the message ids for which `_saveErrorMetadata` wrote a failure record. -/
structure Manager where
  config : MediaConfig
  queue : List QueueItem
  states : List (String × ItemState)
  activeDownloads : List String
  deduplicationCache : List (String × String)
  circuitBreaker : CircuitBreaker
  processing : Bool
  errorRecords : List String
  deriving DecidableEq, Repr

/-- The three possible `localMedia` outcomes of `maybeEnrich`. -/
inductive EnrichResult
  | untouched
  | deduplicated
  | queued
  deriving DecidableEq, Repr

-- Circuit breaker methods (`manager.js` lines 720-762)

/-- Model of `_checkCircuitBreaker()`: returns the allow/deny decision and the
(possibly updated) breaker; the `OPEN → HALF_OPEN` transition happens inside
the check once the reset interval has elapsed since the last failure. -/
def checkCircuitBreaker (now : Nat) (cfg : MediaConfig) (cb : CircuitBreaker) :
    Bool × CircuitBreaker :=
  match cb.state with
  | .closed => (true, cb)
  | .open' =>
      if cfg.circuitBreakerResetMs ≤ now - cb.lastFailureTime then
        (true, { cb with state := .halfOpen })
      else
        (false, cb)
  | .halfOpen => (true, cb)

/-- Model of `_recordFailure()`: bump the consecutive-failure counter, stamp the
failure time, and open the breaker once the threshold is reached. -/
def recordFailure (now : Nat) (cfg : MediaConfig) (cb : CircuitBreaker) : CircuitBreaker :=
  let cb1 := { cb with failures := cb.failures + 1, lastFailureTime := now }
  if cfg.circuitBreakerThreshold ≤ cb1.failures then { cb1 with state := .open' }
  else cb1

/-- Model of `_recordSuccess()`: bump successes, reset the failure counter, and close
the breaker when it was half-open. -/
def recordSuccess (cb : CircuitBreaker) : CircuitBreaker :=
  let cb1 := { cb with successes := cb.successes + 1, failures := 0 }
  match cb1.state with
  | .halfOpen => { cb1 with state := .closed }
  | _ => cb1

/-- Runs `k` consecutive `_recordFailure` calls, all stamped at time `t`. -/
def iterFail (cfg : MediaConfig) (t : Nat) : Nat → CircuitBreaker → CircuitBreaker
  | 0, cb => cb
  | k + 1, cb => iterFail cfg t k (recordFailure t cfg cb)

/-- The breaker reached after `circuitBreakerThreshold` consecutive failures
at time `t`, starting from the freshly constructed breaker (whose success
counter is `s0`). -/
def failN (cfg : MediaConfig) (t s0 : Nat) : CircuitBreaker :=
  iterFail cfg t cfg.circuitBreakerThreshold ⟨.closed, 0, 0, s0⟩

-- Validation methods (`manager.js` lines 696-716) and id / fingerprint
-- derivation (lines 677-694 and 783-793)

/-- JS `String.prototype.toLowerCase` restricted to ASCII letters (the
media-type and MIME strings the source compares are ASCII). -/
def lowerChar (c : Char) : Char :=
  if 65 ≤ c.toNat ∧ c.toNat ≤ 90 then Char.ofNat (c.toNat + 32) else c

def toLowerStr (s : String) : String :=
  String.mk (s.data.map lowerChar)

/-- Model of `_validateMediaType(type)`: case-insensitive substring match of any
configured type inside the event's type string. -/
def validateMediaType (cfg : MediaConfig) (type : String) : Bool :=
  cfg.downloadTypes.any (fun allowed => strIncludes (toLowerStr type) (toLowerStr allowed))

/-- Model of `_validateFileSize(size)`: a falsy size passes; otherwise compare with
the parsed `maxFileSize` (`none` models `Infinity`). -/
def validateFileSize (cfg : MediaConfig) (size : Option Nat) : Bool :=
  match size with
  | none => true
  | some s =>
      if s = 0 then true
      else
        match cfg.maxFileSize with
        | none => true
        | some maxBytes => s ≤ maxBytes

/-- Model of `_validateMimeType(mimetype)`: an empty allow-list accepts everything,
otherwise exact membership of the event's mimetype. -/
def validateMimeType (cfg : MediaConfig) (mimetype : Option String) : Bool :=
  if cfg.allowedMimeTypes.isEmpty then true
  else
    match mimetype with
    | some s => cfg.allowedMimeTypes.contains s
    | none => false

/-- Model of `_getMessageId(rawData)`: the serialized source identifier (the
`id._serialized` / `id.id` / `String(id)` fallback chain is abstracted into
the single `msgId` field). -/
def getMessageId (rd : RawData) : Option String :=
  rd.msgId

/-- The `hasMediaPointer` check of `maybeEnrich`. -/
def hasMediaPointer (rd : RawData) : Bool :=
  truthyS rd.mediaKey || truthyS rd.mediaHash || truthyS rd.clientUrl || truthyS rd.directPath

/-- Model of `_generateDeduplicationKey(rawData)`: the truthy entries of
`[mediaKey, mediaHash || filehash, directPath, size]` joined with `|`. -/
def generateDeduplicationKey (rd : RawData) : String :=
  let sizePart : Option String :=
    match rd.size with
    | some s => if s = 0 then none else some (toString s)
    | none => none
  let parts : List (Option String) :=
    [rd.mediaKey, jsOr rd.mediaHash rd.filehash, rd.directPath, sizePart]
  String.intercalate "|"
    (parts.filterMap (fun o => match o with
      | some s => if s = "" then none else some s
      | none => none))

/-- Model of `_isDuplicate(messageId, rawData)` (`manager.js` lines 766-781): a live
state entry or a cached fingerprint is a duplicate; otherwise the
fingerprint→messageId pair is inserted into the cache and `false` returned. -/
def isDuplicate (m : Manager) (messageId : String) (rd : RawData) : Bool × Manager :=
  if (m.states.lookup messageId).isSome then (true, m)
  else
    let deduplicationKey := generateDeduplicationKey rd
    if (m.deduplicationCache.lookup deduplicationKey).isSome then (true, m)
    else
      (false, { m with
        deduplicationCache := mapSet m.deduplicationCache deduplicationKey messageId })

-- Queue methods (`manager.js` lines 218-285)

/-- Model of `_enqueue(item)` (`manager.js` lines 218-249): reject when the queue is
at `maxQueueSize` or the breaker denies; otherwise append the item, record
a `PENDING` state entry, and return `true`.  (The kick of `_processQueue`
is modelled separately by `processQueueIter`.) -/
def enqueue (now : Nat) (m : Manager) (item : QueueItem) : Bool × Manager :=
  if m.config.maxQueueSize ≤ m.queue.length then (false, m)
  else
    let (allowed, cb) := checkCircuitBreaker now m.config m.circuitBreaker
    if !allowed then (false, { m with circuitBreaker := cb })
    else
      (true, { m with
        circuitBreaker := cb,
        queue := m.queue ++ [item],
        states := mapSet m.states item.messageId
          ⟨.pending, item.timestamp, item.messageId, none⟩ })

/-- The batch-pulling `for` loop of `_processQueue` (`manager.js` lines
269-272): up to `i` iterations, each shifting the queue head, but only while
`activeDownloads.size < concurrentDownloads`.  The loop body never
dispatches, so `active` (the size read from `this.activeDownloads`) does not
change while the loop runs. -/
def pullLoop (active limit : Nat) : Nat → List QueueItem → List QueueItem × List QueueItem
  | 0, q => ([], q)
  | i + 1, q =>
      if active < limit then
        match q with
        | [] => ([], [])
        | x :: rest =>
            let (b, q') := pullLoop active limit i rest
            (x :: b, q')
      else ([], q)

/-- Model of `maybeEnrich(evt)` (`manager.js` lines 120-176): the admission gate,
the deduplication check, and the enqueue attempt, with every early return
leaving the manager untouched. -/
def maybeEnrich (now : Nat) (m : Manager) (rd : RawData) : EnrichResult × Manager :=
  if !m.config.enabled then (.untouched, m)
  else
    let type := jsOr (jsOr rd.type rd.mediaType) rd.mimetype
    if !truthyS type then (.untouched, m)
    else if !validateMediaType m.config (type.getD "") then (.untouched, m)
    else if !validateFileSize m.config rd.size then (.untouched, m)
    else if !validateMimeType m.config rd.mimetype then (.untouched, m)
    else if !hasMediaPointer rd then (.untouched, m)
    else if !truthyS (getMessageId rd) then (.untouched, m)
    else
      let messageId := (getMessageId rd).getD ""
      if m.config.enableDeduplication then
        let (dup, m1) := isDuplicate m messageId rd
        if dup then (.deduplicated, m1)
        else
          let (enqueued, m2) := enqueue now m1 ⟨messageId, rd, now, 0⟩
          if enqueued then (.queued, m2) else (.untouched, m2)
      else
        let (enqueued, m2) := enqueue now m ⟨messageId, rd, now, 0⟩
        if enqueued then (.queued, m2) else (.untouched, m2)

/-- The admission checks of `maybeEnrich` that precede the deduplication
check, as one predicate (used to phrase hypotheses). -/
def passesGate (cfg : MediaConfig) (rd : RawData) : Bool :=
  let type := jsOr (jsOr rd.type rd.mediaType) rd.mimetype
  cfg.enabled && truthyS type && validateMediaType cfg (type.getD "")
    && validateFileSize cfg rd.size && validateMimeType cfg rd.mimetype
    && hasMediaPointer rd && truthyS (getMessageId rd)

-- Downloader model (`downloader.js`, `message-media.js`)

/-- A `MessageMedia` instance (`message-media.js`).  `data` holds the
decoded bytes of the base64 payload. -/
structure Media where
  mimetype : String
  data : List Nat
  filename : String
  filesize : Nat
  deriving DecidableEq, Repr

/-- The `MediaDownloader` configuration (`downloader.js` lines 15-24),
restricted to the fields its control flow reads. -/
structure DlConfig where
  retryAttempts : Nat
  enableIntegrityCheck : Bool
  enableDeduplication : Bool
  maxFileSize : Nat
  supportedTypes : List String
  deriving DecidableEq, Repr

/-- Model of `MessageMedia.validateIntegrity(expectedHash)`: SHA-256 over the decoded
bytes compared with the expected base64 digest as exact string equality;
a falsy expected hash or empty payload fails.  `hashFn` stands for
`crypto.createHash('sha256').update(buffer).digest('base64')`. -/
def validateIntegrity (hashFn : List Nat → String) (media : Media)
    (expectedHash : String) : Bool :=
  if expectedHash = "" then false
  else if media.data.isEmpty then false
  else hashFn media.data = expectedHash

/-- Model of `_validateMessage(message)` (`downloader.js` lines 408-424): an id, a
supported type (exact membership), and at least one of
`mediaKey`/`directPath`/`clientUrl`. -/
def dlValidateMessage (cfg : DlConfig) (rd : RawData) : Bool :=
  truthyS rd.msgId
    && (match rd.type with
        | some t => t ≠ "" && cfg.supportedTypes.contains t
        | none => false)
    && (truthyS rd.mediaKey || truthyS rd.directPath || truthyS rd.clientUrl)

/-- Model of `_isExpiredStatus(message)`: only `status@broadcast` senders older than
24 hours are expired. -/
def isExpiredStatus (now : Nat) (rd : RawData) : Bool :=
  match rd.fromId with
  | some f => f = "status@broadcast" && 24 * 60 * 60 * 1000 < now - rd.tSec * 1000
  | none => false

/-- Model of `_generateCacheKey(message)`: the truthy entries of
`[mediaKey, filehash, directPath, size]` joined with `|` (the md5 hex digest
the source applies on top of the joined string is dropped, keeping the key
in its preimage form). -/
def dlCacheKey (rd : RawData) : String :=
  let sizePart : Option String :=
    match rd.size with
    | some s => if s = 0 then none else some (toString s)
    | none => none
  let parts : List (Option String) := [rd.mediaKey, rd.filehash, rd.directPath, sizePart]
  String.intercalate "|"
    (parts.filterMap (fun o => match o with
      | some s => if s = "" then none else some s
      | none => none))

/-- The retry `for` loop of `downloadMedia` (`downloader.js` lines 77-111).
`oracle attempt` is the result of `_attemptDownload` on that attempt (`none`
for a thrown error or a `success:false` strategy result); `fuel` counts the
remaining loop iterations.  A returned media is integrity-checked first when
the check is enabled and the event declares a `filehash`; a mismatch throws,
which the loop turns into the next attempt. -/
def downloadMediaLoop (cfg : DlConfig) (hashFn : List Nat → String)
    (filehash : Option String) (oracle : Nat → Option Media) :
    Nat → Nat → Option Media
  | 0, _ => none
  | fuel + 1, attempt =>
      match oracle attempt with
      | some media =>
          if cfg.enableIntegrityCheck && truthyS filehash then
            if validateIntegrity hashFn media (filehash.getD "") then some media
            else downloadMediaLoop cfg hashFn filehash oracle fuel (attempt + 1)
          else some media
      | none => downloadMediaLoop cfg hashFn filehash oracle fuel (attempt + 1)

/-- Model of `MediaDownloader.downloadMedia(message)` (`downloader.js` lines 47-122):
validation, the deduplication cache probe, the size and expiry checks, then
the retry loop; every thrown error is caught and turned into `null`
(`none`). -/
def dlDownloadMedia (cfg : DlConfig) (hashFn : List Nat → String)
    (cache : List (String × Media)) (rd : RawData) (oracle : Nat → Option Media)
    (now : Nat) : Option Media :=
  if !dlValidateMessage cfg rd then none
  else
    match (if cfg.enableDeduplication then cache.lookup (dlCacheKey rd) else none) with
    | some cached => some cached
    | none =>
        if (match rd.size with
            | some s => s ≠ 0 && cfg.maxFileSize < s
            | none => false) then none
        else if isExpiredStatus now rd then none
        else downloadMediaLoop cfg hashFn rd.filehash oracle cfg.retryAttempts 1

/-- Model of `_cacheResult(message, media)` (`downloader.js` lines 456-469), with the
hard-coded `1000` bound generalized to `bound`: insert, then evict the
single oldest entry (the first key of the insertion-ordered map) when the
size exceeds the bound. -/
def cacheResultGen (bound : Nat) (cache : List (String × Media)) (k : String)
    (media : Media) : List (String × Media) :=
  let c := mapSet cache k media
  if bound < c.length then
    match c.head? with
    | some p => mapDelete c p.1
    | none => c
  else c

/-- Model of `_cacheResult` exactly as in the source: the bound is the literal `1000`. -/
def cacheResult (cache : List (String × Media)) (k : String) (media : Media) :
    List (String × Media) :=
  cacheResultGen 1000 cache k media

-- Worker / per-item state machine (`manager.js` lines 287-356, 360-431)

/-- A binary file written to its final storage path by `messageMedia.save`. -/
structure SavedFile where
  path : String
  bytes : List Nat
  deriving DecidableEq, Repr

/-- Model of `_downloadMedia(messageId, rawData)` (`manager.js` lines 360-431),
projected onto what it persists: with a media object from the downloader it
writes the binary file (the metadata sidecar is not modelled) and reports
success; with `null` it throws, the catch turns that into `success:false`,
and nothing is written.  The `year/month/timestamp_id.ext` path derivation
is abstracted into `path`. -/
def managerDownloadMedia (dl : Option Media) (path : String) :
    Bool × List SavedFile :=
  match dl with
  | some media => (true, [⟨path, media.data⟩])
  | none => (false, [])

/-- The synchronous prefix of `_processItem(item)` (`manager.js` lines
287-301), which runs at dispatch before the first `await`: add the id to
`activeDownloads` and set the state entry to `DOWNLOADING`. -/
def processItemStart (now : Nat) (m : Manager) (item : QueueItem) : Manager :=
  { m with
    activeDownloads := setAdd m.activeDownloads item.messageId,
    states := mapSet m.states item.messageId
      ⟨.downloading, now, item.messageId, none⟩ }

/-- The remainder of `_processItem(item)` (`manager.js` lines 304-355) once
`_downloadMedia` has resolved.  `dl` is the media the downloader returned
(`none` for a failed download) and `err` the failure message.  On success
the state becomes `DOWNLOADED` and a breaker success is recorded.  On
failure with retries left, `item.retries` is incremented and a deferred
re-insertion is scheduled (returned as `some (delay, item')`, standing for
the `setTimeout` whose callback is `fireRetry`); the state entry is not
touched.  On exhausted retries the state becomes `ERROR`, a breaker failure
and an error record are written.  The `finally` block removes the id from
`activeDownloads`. -/
def processItemFinish (now : Nat) (m : Manager) (item : QueueItem)
    (dl : Option Media) (err : String) : Manager × Option (Nat × QueueItem) :=
  match dl with
  | some _ =>
      ({ m with
          states := mapSet m.states item.messageId
            ⟨.downloaded, now, item.messageId, none⟩,
          circuitBreaker := recordSuccess m.circuitBreaker,
          activeDownloads := setDelete m.activeDownloads item.messageId }, none)
  | none =>
      if item.retries < m.config.retryAttempts then
        let item' := { item with retries := item.retries + 1 }
        ({ m with activeDownloads := setDelete m.activeDownloads item.messageId },
          some (m.config.retryDelayMs * 2 ^ (item'.retries - 1), item'))
      else
        ({ m with
            states := mapSet m.states item.messageId
              ⟨.error, now, item.messageId, some err⟩,
            circuitBreaker := recordFailure now m.config m.circuitBreaker,
            errorRecords := item.messageId :: m.errorRecords,
            activeDownloads := setDelete m.activeDownloads item.messageId }, none)

/-- The `setTimeout` callback of the retry path (`manager.js` lines
333-335): `this.queue.push(item)`, with no queue-size or breaker check. -/
def fireRetry (m : Manager) (item : QueueItem) : Manager :=
  { m with queue := m.queue ++ [item] }

/-- One iteration of the `_processQueue` scheduling loop body (`manager.js`
lines 265-277), under no memory pressure: compute the batch size, run the
pulling loop, then dispatch every pulled item (each dispatch runs the
synchronous prefix `processItemStart`). -/
def processQueueIter (now : Nat) (m : Manager) : Manager :=
  let batchSize := min m.config.batchProcessSize m.queue.length
  let (batch, q') :=
    pullLoop m.activeDownloads.length m.config.concurrentDownloads batchSize m.queue
  let m1 := { m with queue := q' }
  batch.foldl (fun acc item => processItemStart now acc item) m1

/-- The lifecycle of a single item every one of whose download attempts
fails with message `err`: each round runs the dispatch prefix and the
failure path of `_processItem`; a scheduled re-insertion hands the bumped
item to the next round (the timer fires, `fireRetry` appends it, and the
scheduler pulls it again — the queue bookkeeping of that round trip cancels
out and is elided).  Returns the list of backoff delays of the deferred
re-insertions, in order, together with the final manager. -/
def runFail : Nat → Nat → Manager → QueueItem → String → List Nat × Manager
  | 0, _, m, _, _ => ([], m)
  | fuel + 1, now, m, item, err =>
      match processItemFinish now (processItemStart now m item) item none err with
      | (m2, some di) =>
          (di.1 :: (runFail fuel now m2 di.2 err).1, (runFail fuel now m2 di.2 err).2)
      | (m2, none) => ([], m2)

-- Cleanup (`manager.js` lines 199-214)

/-- The purge condition of `cleanup()`: a terminal state entry older than
the retention cutoff. -/
def purgeable (cutoff : Nat) (st : ItemState) : Bool :=
  (st.state = .downloaded || st.state = .error) && st.timestamp < cutoff

/-- Model of `cleanup()` (`manager.js` lines 199-214): for every purgeable entry,
`states.delete(messageId)` and `deduplicationCache.delete(messageId)` — the
latter keyed by the message id, exactly as in the source. -/
def cleanup (now : Nat) (m : Manager) : Manager :=
  let cutoff := now - m.config.cleanupCompletedAfterMs
  let purgedIds := (m.states.filter (fun p => purgeable cutoff p.2)).map Prod.fst
  { m with
    states := m.states.filter (fun p => !purgeable cutoff p.2),
    deduplicationCache :=
      purgedIds.foldl (fun c messageId => mapDelete c messageId) m.deduplicationCache }

-- Shared concrete configuration (the constructor defaults of `manager.js`,
-- lines 43-60, with `maxFileSize` left unbounded)

def cfgBase : MediaConfig :=
  { enabled := true
    downloadTypes := ["image", "video", "audio", "document", "sticker"]
    maxFileSize := none
    concurrentDownloads := 3
    maxQueueSize := 1000
    retryAttempts := 3
    retryDelayMs := 5000
    batchProcessSize := 10
    allowedMimeTypes := []
    enableDeduplication := true
    enableIntegrityCheck := true
    cleanupCompletedAfterMs := 86400000
    circuitBreakerThreshold := 10
    circuitBreakerResetMs := 60000 }

def cfgC5w : MediaConfig :=
  { cfgBase with circuitBreakerThreshold := 2, circuitBreakerResetMs := 10 }

def cfgC5x : MediaConfig :=
  { cfgBase with circuitBreakerThreshold := 1, circuitBreakerResetMs := 10 }

-- Concrete scenario data shared by several witnesses

def rdImg : RawData :=
  { type := some "image"
    mediaType := none
    mimetype := some "image/jpeg"
    size := some 5
    mediaKey := some "key1"
    mediaHash := none
    filehash := some "HASH"
    clientUrl := none
    directPath := none
    msgId := some "m1"
    fromId := none
    tSec := 0 }

def mediaJpg : Media := ⟨"image/jpeg", [1, 2, 3], "media", 3⟩

def mgrC1 : Manager :=
  { config := cfgBase
    queue := []
    states := []
    activeDownloads := []
    deduplicationCache := []
    circuitBreaker := ⟨.open', 10, 0, 0⟩
    processing := false
    errorRecords := [] }

def itemC1 : QueueItem := ⟨"m1", rdImg, 5, 0⟩

-- C2: the batch pull is not bounded by free worker slots

def mkItem (s : String) : QueueItem :=
  ⟨s, { rdImg with msgId := some s }, 0, 0⟩

def cfgC2 : MediaConfig := { cfgBase with concurrentDownloads := 2 }

def mgrC2 : Manager :=
  { config := cfgC2
    queue := [mkItem "a", mkItem "b", mkItem "c", mkItem "d", mkItem "e"]
    states := []
    activeDownloads := []
    deduplicationCache := []
    circuitBreaker := ⟨.closed, 0, 0, 0⟩
    processing := true
    errorRecords := [] }

def cfgC3 : MediaConfig := { cfgBase with retryAttempts := 3, retryDelayMs := 5000 }

def mgrC3 : Manager :=
  { config := cfgC3
    queue := []
    states := [("m1", ⟨.pending, 0, "m1", none⟩)]
    activeDownloads := []
    deduplicationCache := []
    circuitBreaker := ⟨.closed, 0, 0, 0⟩
    processing := true
    errorRecords := [] }

def itemC3 : QueueItem := ⟨"m1", rdImg, 0, 0⟩

-- C4: the integrity gate

/-- The state predicate of C4: the recorded state is not Downloaded. -/
def stateNotDownloaded (st : ItemState) : Bool :=
  st.state != MediaState.downloaded

def dlCfgC4 : DlConfig :=
  ⟨3, true, true, 52428800, ["image", "video", "audio", "document", "sticker", "ptt"]⟩

def hashC4 : List Nat → String := fun _ => "H"

def oracleC4 : Nat → Option Media := fun _ => some ⟨"image/jpeg", [9, 9], "f", 2⟩

/-- The n-th distinct fingerprint of the unbounded-cache scenario. -/
def fpKey (i : Nat) : String := String.mk (List.replicate (i + 1) 'k')

/-- The n-th event of the unbounded-cache scenario: only `mediaKey` is
populated, so its deduplication fingerprint is `fpKey i`. -/
def fpRaw (i : Nat) : RawData :=
  { type := some "image", mediaType := none, mimetype := none, size := none
    mediaKey := some (fpKey i), mediaHash := none, filehash := none
    clientUrl := none, directPath := none, msgId := some "m", fromId := none
    tSec := 0 }

def mgrC6 : Manager :=
  { config := cfgBase
    queue := []
    states := []
    activeDownloads := []
    deduplicationCache := []
    circuitBreaker := ⟨.closed, 0, 0, 0⟩
    processing := false
    errorRecords := [] }

/-- Runs `n` successive `_isDuplicate` probes with `n` distinct fingerprints,
starting from an empty manager. -/
def insertUpTo : Nat → Manager
  | 0 => mgrC6
  | n + 1 => (isDuplicate (insertUpTo n) "m" (fpRaw n)).2

-- C7: cleanup and the deduplication cache

def cfgC7 : MediaConfig := { cfgBase with cleanupCompletedAfterMs := 100 }

def mgrC7 : Manager :=
  { config := cfgC7
    queue := []
    states := [("m1", ⟨.error, 0, "m1", some "fail"⟩)]
    activeDownloads := []
    deduplicationCache := [("key1|HASH|5", "m1")]
    circuitBreaker := ⟨.closed, 0, 0, 0⟩
    processing := false
    errorRecords := ["m1"] }

def mgrC8 : Manager :=
  { mgrC6 with states := [("m1", ⟨.pending, 0, "m1", none⟩)] }

def mgrC9 : Manager :=
  { mgrC6 with config := { cfgBase with maxQueueSize := 0 } }

-- C10: a failed enqueue leaves the fingerprint in the cache

/-- The manager after `_isDuplicate` has inserted the event's fingerprint
but nothing else has changed. -/
def poisoned (m : Manager) (rd : RawData) : Manager :=
  { m with
    deduplicationCache := mapSet m.deduplicationCache
      (generateDeduplicationKey rd) ((getMessageId rd).getD "") }

def cfgC10 : MediaConfig := { cfgBase with maxQueueSize := 0 }

def mgrC10 : Manager := { mgrC6 with config := cfgC10 }

def rdC10b : RawData := { rdImg with msgId := some "m2" }

def mgrC10open : Manager := { mgrC6 with circuitBreaker := ⟨.open', 10, 0, 0⟩ }

-- Lemmas and claim theorems

-- Association-list helper lemmas

theorem lookup_cons_eq_if {α : Type} (a k : String) (b : α) (t : List (String × α)) :
    List.lookup k ((a, b) :: t) = if k = a then some b else List.lookup k t := by
  show (match k == a with | true => some b | false => List.lookup k t)
      = if k = a then some b else List.lookup k t
  by_cases h : k = a
  · rw [if_pos h, beq_iff_eq.mpr h]
  · rw [if_neg h, beq_false_of_ne h]

theorem lookup_append_of_none {α : Type} (l1 l2 : List (String × α)) (k : String)
    (h : l1.lookup k = none) : (l1 ++ l2).lookup k = l2.lookup k := by
  induction l1 with
  | nil => simp
  | cons p t ih =>
      rcases p with ⟨a, b⟩
      rw [lookup_cons_eq_if] at h
      by_cases hk : k = a
      · rw [if_pos hk] at h
        exact absurd h (by simp)
      · rw [if_neg hk] at h
        rw [List.cons_append, lookup_cons_eq_if, if_neg hk]
        exact ih h

theorem lookup_map_update {α : Type} (k : String) (v : α) :
    ∀ (l : List (String × α)), (l.lookup k).isSome →
      (l.map (fun p => if p.1 = k then (k, v) else p)).lookup k = some v := by
  intro l
  induction l with
  | nil => simp
  | cons p t ih =>
      rcases p with ⟨a, b⟩
      intro h
      rw [lookup_cons_eq_if] at h
      by_cases hk : a = k
      · rw [List.map_cons]
        simp only [if_pos hk]
        rw [lookup_cons_eq_if, if_pos rfl]
      · have hk' : ¬(k = a) := fun hh => hk hh.symm
        rw [if_neg hk'] at h
        rw [List.map_cons]
        simp only [if_neg hk]
        rw [lookup_cons_eq_if, if_neg hk']
        exact ih h

theorem lookup_mapSet_self {α : Type} (m : List (String × α)) (k : String) (v : α) :
    (mapSet m k v).lookup k = some v := by
  unfold mapSet
  by_cases h : (m.lookup k).isSome
  · rw [if_pos h]
    exact lookup_map_update k v m h
  · rw [if_neg h]
    have hn : m.lookup k = none := by
      cases hm : m.lookup k with
      | none => rfl
      | some w => rw [hm] at h; simp at h
    rw [lookup_append_of_none m [(k, v)] k hn, lookup_cons_eq_if, if_pos rfl]

theorem mapSet_of_none {α : Type} (m : List (String × α)) (k : String) (v : α)
    (h : m.lookup k = none) : mapSet m k v = m ++ [(k, v)] := by
  unfold mapSet
  rw [h]
  simp

-- State-machine bookkeeping lemmas

@[simp] theorem processItemStart_config (now : Nat) (m : Manager) (item : QueueItem) :
    (processItemStart now m item).config = m.config := rfl

@[simp] theorem processItemFinish_config (now : Nat) (m : Manager) (item : QueueItem)
    (dl : Option Media) (err : String) :
    (processItemFinish now m item dl err).1.config = m.config := by
  unfold processItemFinish
  cases dl
  · by_cases h : item.retries < m.config.retryAttempts
    · rw [if_pos h]
    · rw [if_neg h]
  · rfl

-- C5: circuit breaker trip and recovery

theorem iterFail_opens (cfg : MediaConfig) (t s0 l0 : Nat) :
    ∀ k f, f + k = cfg.circuitBreakerThreshold → 1 ≤ k →
      iterFail cfg t k ⟨.closed, f, l0, s0⟩
        = ⟨.open', cfg.circuitBreakerThreshold, t, s0⟩ := by
  intro k
  induction k with
  | zero => intro f _ hk; exact absurd hk (by omega)
  | succ k ih =>
      intro f hf _
      show iterFail cfg t k (recordFailure t cfg ⟨.closed, f, l0, s0⟩)
        = ⟨.open', cfg.circuitBreakerThreshold, t, s0⟩
      cases k with
      | zero =>
          have hth : cfg.circuitBreakerThreshold ≤ f + 1 := by omega
          show recordFailure t cfg ⟨.closed, f, l0, s0⟩
            = ⟨.open', cfg.circuitBreakerThreshold, t, s0⟩
          unfold recordFailure
          rw [if_pos hth]
          have : f + 1 = cfg.circuitBreakerThreshold := by omega
          simp [this]
      | succ k' =>
          have hlt : ¬ cfg.circuitBreakerThreshold ≤ f + 1 := by omega
          have hr : recordFailure t cfg ⟨.closed, f, l0, s0⟩
              = ⟨.closed, f + 1, t, s0⟩ := by
            unfold recordFailure
            rw [if_neg hlt]
          rw [hr]
          exact ih (f + 1) (by omega) (by omega)

/-- C5 (amended): after `circuitBreakerThreshold` consecutive recorded
failures the breaker is Open and `allow()` returns `false` until
`circuitBreakerResetMs` has elapsed since the last failure; once the
interval has elapsed, every `allow()` call returns `true` — the first such
call transitions the breaker to HalfOpen, and subsequent calls in HalfOpen
are also allowed (the source places no single-probe limit on HalfOpen).  A
success in HalfOpen closes the breaker and resets the consecutive-failure
counter; a failure in HalfOpen (the counter still at threshold) reopens
it. -/
theorem c5_breaker_amended (cfg : MediaConfig) (t s0 nEarly now now2 : Nat)
    (hth : 1 ≤ cfg.circuitBreakerThreshold)
    (hEarly : nEarly - t < cfg.circuitBreakerResetMs)
    (hlate : cfg.circuitBreakerResetMs ≤ now - t) :
    (failN cfg t s0).state = .open'
    ∧ (failN cfg t s0).failures = cfg.circuitBreakerThreshold
    ∧ checkCircuitBreaker nEarly cfg (failN cfg t s0) = (false, failN cfg t s0)
    ∧ (checkCircuitBreaker now cfg (failN cfg t s0)).1 = true
    ∧ (checkCircuitBreaker now cfg (failN cfg t s0)).2.state = .halfOpen
    ∧ checkCircuitBreaker now2 cfg (checkCircuitBreaker now cfg (failN cfg t s0)).2
        = (true, (checkCircuitBreaker now cfg (failN cfg t s0)).2)
    ∧ (recordSuccess (checkCircuitBreaker now cfg (failN cfg t s0)).2).state = .closed
    ∧ (recordSuccess (checkCircuitBreaker now cfg (failN cfg t s0)).2).failures = 0
    ∧ (recordFailure now2 cfg (checkCircuitBreaker now cfg (failN cfg t s0)).2).state
        = .open' := by
  have hfn : failN cfg t s0 = ⟨.open', cfg.circuitBreakerThreshold, t, s0⟩ :=
    iterFail_opens cfg t s0 0 cfg.circuitBreakerThreshold 0 (by omega) hth
  rw [hfn]
  have hEarly' : ¬ cfg.circuitBreakerResetMs ≤ nEarly - t := by omega
  have hchk : checkCircuitBreaker now cfg ⟨.open', cfg.circuitBreakerThreshold, t, s0⟩
      = (true, ⟨.halfOpen, cfg.circuitBreakerThreshold, t, s0⟩) := by
    unfold checkCircuitBreaker
    rw [if_pos hlate]
  have hhalf : ∀ n, checkCircuitBreaker n cfg
      ⟨.halfOpen, cfg.circuitBreakerThreshold, t, s0⟩
      = (true, ⟨.halfOpen, cfg.circuitBreakerThreshold, t, s0⟩) := fun _ => rfl
  refine ⟨rfl, rfl, ?_, ?_, ?_, ?_, ?_, ?_, ?_⟩
  · unfold checkCircuitBreaker
    rw [if_neg hEarly']
  · rw [hchk]
  · rw [hchk]
  · rw [hchk]
    exact hhalf now2
  · rw [hchk]
    rfl
  · rw [hchk]
    rfl
  · rw [hchk]
    show (recordFailure now2 cfg ⟨.halfOpen, cfg.circuitBreakerThreshold, t, s0⟩).state
      = .open'
    simp [recordFailure]

/-- Witness for `c5_breaker_amended` at threshold 2, reset 10ms, failures at
t = 0, an early probe at 7 and allowed calls at 10 and 11. -/
theorem c5_breaker_amended_witness :
    (failN cfgC5w 0 0).state = .open'
    ∧ (failN cfgC5w 0 0).failures = cfgC5w.circuitBreakerThreshold
    ∧ checkCircuitBreaker 7 cfgC5w (failN cfgC5w 0 0) = (false, failN cfgC5w 0 0)
    ∧ (checkCircuitBreaker 10 cfgC5w (failN cfgC5w 0 0)).1 = true
    ∧ (checkCircuitBreaker 10 cfgC5w (failN cfgC5w 0 0)).2.state = .halfOpen
    ∧ checkCircuitBreaker 11 cfgC5w (checkCircuitBreaker 10 cfgC5w (failN cfgC5w 0 0)).2
        = (true, (checkCircuitBreaker 10 cfgC5w (failN cfgC5w 0 0)).2)
    ∧ (recordSuccess (checkCircuitBreaker 10 cfgC5w (failN cfgC5w 0 0)).2).state = .closed
    ∧ (recordSuccess (checkCircuitBreaker 10 cfgC5w (failN cfgC5w 0 0)).2).failures = 0
    ∧ (recordFailure 11 cfgC5w (checkCircuitBreaker 10 cfgC5w (failN cfgC5w 0 0)).2).state
        = .open' :=
  c5_breaker_amended cfgC5w 0 0 7 10 11 (by decide) (by decide) (by decide)

/-- C5 counterexample: with threshold 1 and reset 10ms, one failure at
t = 0 opens the breaker; once the interval has elapsed (now = 10), a first
`allow()` call is granted and transitions to HalfOpen — but a second
`allow()` call with no intervening success or failure is granted as well,
so it is not the case that "exactly one call is allowed" after the reset
interval. -/
theorem c5_breaker_counterexample :
    (recordFailure 0 cfgC5x ⟨.closed, 0, 0, 0⟩).state = .open'
    ∧ (checkCircuitBreaker 10 cfgC5x (recordFailure 0 cfgC5x ⟨.closed, 0, 0, 0⟩)).1 = true
    ∧ (checkCircuitBreaker 10 cfgC5x
        (checkCircuitBreaker 10 cfgC5x (recordFailure 0 cfgC5x ⟨.closed, 0, 0, 0⟩)).2).1
        = true := by
  decide

-- C1: where the circuit-breaker check sits relative to driver invocations

theorem checkCircuitBreaker_open_denied (now : Nat) (cfg : MediaConfig)
    (cb : CircuitBreaker) (h1 : cb.state = .open')
    (h2 : now - cb.lastFailureTime < cfg.circuitBreakerResetMs) :
    checkCircuitBreaker now cfg cb = (false, cb) := by
  unfold checkCircuitBreaker
  rw [h1]
  show (if cfg.circuitBreakerResetMs ≤ now - cb.lastFailureTime
    then (true, { cb with state := .halfOpen }) else (false, cb)) = (false, cb)
  rw [if_neg (by omega)]

/-- C1 (amended): the circuit-breaker `allow()` check guards only admission
into the queue.  While the breaker is Open (and the reset interval has not
elapsed), `_enqueue` returns `false` and the manager is completely
unchanged: the new item is dropped with no queue entry, no state record and
no retry consumed.  Item processing never consults the breaker: dispatch
moves the item to Downloading and a successful driver result completes it
to Downloaded even though `allow()` would have returned `false` throughout,
so a persistently open breaker blocks new admissions rather than exhausting
pending items' retries. -/
theorem c1_breaker_gates_admission_only (now : Nat) (m : Manager) (item : QueueItem)
    (media : Media)
    (hq : m.queue.length < m.config.maxQueueSize)
    (hopen : m.circuitBreaker.state = .open')
    (hearly : now - m.circuitBreaker.lastFailureTime < m.config.circuitBreakerResetMs) :
    enqueue now m item = (false, m)
    ∧ (processItemStart now m item).circuitBreaker = m.circuitBreaker
    ∧ ((processItemStart now m item).states.lookup item.messageId).map ItemState.state
        = some .downloading
    ∧ (((processItemFinish now (processItemStart now m item) item (some media)
          "").1.states.lookup item.messageId).map ItemState.state)
        = some .downloaded := by
  refine ⟨?_, rfl, ?_, ?_⟩
  · unfold enqueue
    rw [if_neg (by omega), checkCircuitBreaker_open_denied now m.config m.circuitBreaker
      hopen hearly]
    rfl
  · show ((mapSet m.states item.messageId
        ⟨.downloading, now, item.messageId, none⟩).lookup item.messageId).map
        ItemState.state = some .downloading
    rw [lookup_mapSet_self]
    rfl
  · show ((mapSet (processItemStart now m item).states item.messageId
        ⟨.downloaded, now, item.messageId, none⟩).lookup item.messageId).map
        ItemState.state = some .downloaded
    rw [lookup_mapSet_self]
    rfl

/-- Witness for `c1_breaker_gates_admission_only` with an open breaker
(last failure at 0, reset 60000ms, now 5). -/
theorem c1_breaker_gates_admission_only_witness :
    enqueue 5 mgrC1 itemC1 = (false, mgrC1)
    ∧ (processItemStart 5 mgrC1 itemC1).circuitBreaker = mgrC1.circuitBreaker
    ∧ ((processItemStart 5 mgrC1 itemC1).states.lookup itemC1.messageId).map
        ItemState.state = some .downloading
    ∧ (((processItemFinish 5 (processItemStart 5 mgrC1 itemC1) itemC1 (some mediaJpg)
          "").1.states.lookup itemC1.messageId).map ItemState.state)
        = some .downloaded :=
  c1_breaker_gates_admission_only 5 mgrC1 itemC1 mediaJpg (by decide) (by decide)
    (by decide)

/-- C1 counterexample: with the breaker Open (so `allow()` returns `false`),
`_enqueue` drops the item leaving no state record and consuming no retry —
the rejection is not "an immediate failure that consumes one of the item's
retries"; and an item already being processed reaches Downloaded via the
fetch driver with no preceding `allow()` check. -/
theorem c1_breaker_counterexample :
    (checkCircuitBreaker 5 mgrC1.config mgrC1.circuitBreaker).1 = false
    ∧ enqueue 5 mgrC1 itemC1 = (false, mgrC1)
    ∧ (enqueue 5 mgrC1 itemC1).2.states.lookup "m1" = none
    ∧ itemC1.retries = 0
    ∧ (((processItemFinish 5 (processItemStart 5 mgrC1 itemC1) itemC1 (some mediaJpg)
          "").1.states.lookup "m1").map ItemState.state) = some .downloaded := by
  decide

/-- C2 failing input: with `concurrentDownloads = 2`, `batchProcessSize =
10`, no active download and 5 queued items, one iteration of the scheduling
loop pulls all 5 items (the `activeDownloads.size < concurrentDownloads`
loop condition is evaluated before any dispatch, so it never changes during
the pull) and dispatches all of them: 5 items are in the Downloading state
concurrently, exceeding the limit of 2. -/
theorem c2_concurrency_bound_violated :
    mgrC2.config.concurrentDownloads = 2
    ∧ mgrC2.config.batchProcessSize = 10
    ∧ mgrC2.activeDownloads.length = 0
    ∧ mgrC2.queue.length = 5
    ∧ (processQueueIter 0 mgrC2).activeDownloads.length = 5
    ∧ ((processQueueIter 0 mgrC2).states.filter
        (fun p => p.2.state == MediaState.downloading)).length = 5
    ∧ (processQueueIter 0 mgrC2).queue = [] := by
  decide

-- C3: the always-failing retry ladder

theorem processItemFinish_retry (now : Nat) (m : Manager) (item : QueueItem)
    (err : String) (h : item.retries < m.config.retryAttempts) :
    processItemFinish now m item none err
      = ({ m with activeDownloads := setDelete m.activeDownloads item.messageId },
          some (m.config.retryDelayMs * 2 ^ item.retries,
            { item with retries := item.retries + 1 })) := by
  unfold processItemFinish
  rw [if_pos h]
  rfl

theorem processItemFinish_exhausted (now : Nat) (m : Manager) (item : QueueItem)
    (err : String) (h : ¬ item.retries < m.config.retryAttempts) :
    processItemFinish now m item none err
      = ({ m with
            states := mapSet m.states item.messageId
              ⟨.error, now, item.messageId, some err⟩,
            circuitBreaker := recordFailure now m.config m.circuitBreaker,
            errorRecords := item.messageId :: m.errorRecords,
            activeDownloads := setDelete m.activeDownloads item.messageId }, none) := by
  unfold processItemFinish
  rw [if_neg h]

theorem runFail_step_none (fuel now : Nat) (m : Manager) (item : QueueItem) (err : String)
    (m2 : Manager)
    (h : processItemFinish now (processItemStart now m item) item none err = (m2, none)) :
    runFail (fuel + 1) now m item err = ([], m2) := by
  simp only [runFail]
  rw [h]

theorem runFail_step_some (fuel now : Nat) (m : Manager) (item : QueueItem) (err : String)
    (m2 : Manager) (d : Nat) (item' : QueueItem)
    (h : processItemFinish now (processItemStart now m item) item none err
      = (m2, some (d, item'))) :
    runFail (fuel + 1) now m item err
      = (d :: (runFail fuel now m2 item' err).1, (runFail fuel now m2 item' err).2) := by
  simp only [runFail]
  rw [h]

theorem runFail_spec (now : Nat) (err : String) :
    ∀ (k : Nat) (m : Manager) (item : QueueItem),
      item.retries + k = m.config.retryAttempts →
      (runFail (k + 1) now m item err).1
          = (List.range' item.retries k).map (fun i => m.config.retryDelayMs * 2 ^ i)
      ∧ (runFail (k + 1) now m item err).2.states.lookup item.messageId
          = some ⟨.error, now, item.messageId, some err⟩
      ∧ item.messageId ∈ (runFail (k + 1) now m item err).2.errorRecords := by
  intro k
  induction k with
  | zero =>
      intro m item h
      have hlt : ¬ item.retries < (processItemStart now m item).config.retryAttempts := by
        rw [processItemStart_config]
        omega
      have hrun := runFail_step_none 0 now m item err _
        (processItemFinish_exhausted now (processItemStart now m item) item err hlt)
      refine ⟨by rw [hrun]; simp, ?_, ?_⟩
      · rw [hrun]
        exact lookup_mapSet_self _ _ _
      · rw [hrun]
        exact List.mem_cons_self _ _
  | succ k ih =>
      intro m item h
      have hlt : item.retries < (processItemStart now m item).config.retryAttempts := by
        rw [processItemStart_config]
        omega
      have hrun := runFail_step_some (k + 1) now m item err _ _ _
        (processItemFinish_retry now (processItemStart now m item) item err hlt)
      have hih := ih { processItemStart now m item with
          activeDownloads := setDelete (processItemStart now m item).activeDownloads
            item.messageId }
        { item with retries := item.retries + 1 }
        (by show item.retries + 1 + k = m.config.retryAttempts; omega)
      refine ⟨?_, ?_, ?_⟩
      · rw [hrun, List.range'_succ item.retries k 1, List.map_cons]
        exact congrArg _ hih.1
      · rw [hrun]
        exact hih.2.1
      · rw [hrun]
        exact hih.2.2

/-- C3 (amended): for an item whose download attempt always fails, the item
is re-inserted into the queue via deferred re-insertion exactly
`retryAttempts` times, the delay before the n-th re-insertion equals
`retryDelayMs × 2^(n−1)`, and after the retries are exhausted the item's
recorded state becomes Error with a persisted failure record and is never
set back to Pending.  (During backoff the recorded ItemState remains
Downloading — the retry path re-queues the item without resetting the state
map entry to Pending.) -/
theorem c3_retry_ladder_amended (now : Nat) (m : Manager) (item : QueueItem)
    (err : String) (h0 : item.retries = 0) :
    (runFail (m.config.retryAttempts + 1) now m item err).1
        = (List.range m.config.retryAttempts).map
            (fun n => m.config.retryDelayMs * 2 ^ n)
    ∧ (runFail (m.config.retryAttempts + 1) now m item err).1.length
        = m.config.retryAttempts
    ∧ (runFail (m.config.retryAttempts + 1) now m item err).2.states.lookup
        item.messageId = some ⟨.error, now, item.messageId, some err⟩
    ∧ item.messageId ∈ (runFail (m.config.retryAttempts + 1) now m item
        err).2.errorRecords := by
  have hs := runFail_spec now err m.config.retryAttempts m item (by omega)
  rw [h0] at hs
  rw [← List.range_eq_range'] at hs
  exact ⟨hs.1, by rw [hs.1]; simp, hs.2.1, hs.2.2⟩

/-- Witness for `c3_retry_ladder_amended`: with `retryAttempts = 3` and
`retryDelayMs = 5000`, the three re-insertion delays are 5000, 10000 and
20000 ms and the final recorded state is Error with a failure record. -/
theorem c3_retry_ladder_amended_witness :
    (runFail 4 0 mgrC3 itemC3 "boom").1 = [5000, 10000, 20000]
    ∧ (runFail 4 0 mgrC3 itemC3 "boom").1.length = 3
    ∧ (runFail 4 0 mgrC3 itemC3 "boom").2.states.lookup "m1"
        = some ⟨.error, 0, "m1", some "boom"⟩
    ∧ "m1" ∈ (runFail 4 0 mgrC3 itemC3 "boom").2.errorRecords := by
  obtain ⟨h1, h2, h3, h4⟩ := c3_retry_ladder_amended 0 mgrC3 itemC3 "boom" rfl
  exact ⟨h1.trans (by decide), h2, h3, h4⟩

/-- C3 counterexample: after the first failed attempt (retries remaining),
the retry re-insertion is scheduled but the recorded ItemState stays
Downloading — it is not reset to Pending, so the item does not undergo a
recorded Pending → Downloading → Pending transition; the state-map entry
remains Downloading even after the timer has re-queued the item. -/
theorem c3_no_pending_reset_counterexample :
    (processItemFinish 0 (processItemStart 0 mgrC3 itemC3) itemC3 none "boom").2
        = some (5000, { itemC3 with retries := 1 })
    ∧ ((processItemFinish 0 (processItemStart 0 mgrC3 itemC3) itemC3 none
        "boom").1.states.lookup "m1").map ItemState.state = some .downloading
    ∧ ((fireRetry (processItemFinish 0 (processItemStart 0 mgrC3 itemC3) itemC3 none
        "boom").1 { itemC3 with retries := 1 }).states.lookup "m1").map ItemState.state
        = some .downloading
    ∧ (fireRetry (processItemFinish 0 (processItemStart 0 mgrC3 itemC3) itemC3 none
        "boom").1 { itemC3 with retries := 1 }).queue
        = [{ itemC3 with retries := 1 }] := by
  decide

theorem downloadMediaLoop_mismatch (cfg : DlConfig) (hashFn : List Nat → String)
    (fh : Option String) (oracle : Nat → Option Media)
    (hint : cfg.enableIntegrityCheck = true) (hfh : truthyS fh = true)
    (hmm : ∀ a media, oracle a = some media → hashFn media.data ≠ fh.getD "") :
    ∀ fuel attempt, downloadMediaLoop cfg hashFn fh oracle fuel attempt = none := by
  obtain ⟨s, hfs, hsne⟩ : ∃ s, fh = some s ∧ s ≠ "" := by
    cases fh with
    | none => simp [truthyS] at hfh
    | some s => exact ⟨s, rfl, by simpa [truthyS] using hfh⟩
  intro fuel
  induction fuel with
  | zero => intro _; rfl
  | succ fuel ih =>
      intro attempt
      have hcond : (cfg.enableIntegrityCheck && truthyS fh) = true := by
        rw [hint, hfh]
        rfl
      simp only [downloadMediaLoop, hcond]
      cases ho : oracle attempt with
      | none => exact ih (attempt + 1)
      | some media =>
          have hvi : validateIntegrity hashFn media (fh.getD "") = false := by
            unfold validateIntegrity
            rw [hfs]
            simp only [Option.getD_some]
            rw [if_neg hsne]
            by_cases hemp : media.data.isEmpty
            · rw [if_pos hemp]
            · rw [if_neg hemp]
              have := hmm attempt media ho
              rw [hfs] at this
              simp only [Option.getD_some] at this
              simp [this]
          simp only [hvi]
          simp only [if_true, Bool.false_eq_true, if_false]
          exact ih (attempt + 1)

/-- C4: for every event that declares an expected content hash (with the
integrity check enabled, its default), if the SHA-256/base64 digest of the
bytes fetched on every attempt differs from that hash, the downloader
returns `null`, `_downloadMedia` reports failure and persists no binary
file, and the item's recorded state after the attempt is never
Downloaded. -/
theorem c4_integrity_gate (cfg : DlConfig) (hashFn : List Nat → String) (rd : RawData)
    (oracle : Nat → Option Media) (now : Nat) (mgr : Manager) (item : QueueItem)
    (err : String) (path : String)
    (hint : cfg.enableIntegrityCheck = true)
    (hfh : truthyS rd.filehash = true)
    (hmm : ∀ a media, oracle a = some media → hashFn media.data ≠ rd.filehash.getD "") :
    dlDownloadMedia cfg hashFn [] rd oracle now = none
    ∧ managerDownloadMedia (dlDownloadMedia cfg hashFn [] rd oracle now) path
        = (false, [])
    ∧ (((processItemFinish now (processItemStart now mgr item) item
        (dlDownloadMedia cfg hashFn [] rd oracle now) err).1.states.lookup
        item.messageId).all stateNotDownloaded) = true := by
  have hloop := downloadMediaLoop_mismatch cfg hashFn rd.filehash oracle hint hfh hmm
  have hdl : dlDownloadMedia cfg hashFn [] rd oracle now = none := by
    unfold dlDownloadMedia
    cases hv : dlValidateMessage cfg rd with
    | false => simp
    | true =>
        simp only [Bool.not_true, Bool.false_eq_true, if_false]
        have hcache : (if cfg.enableDeduplication
            then List.lookup (dlCacheKey rd) ([] : List (String × Media))
            else none) = none := by
          cases cfg.enableDeduplication <;> rfl
        rw [hcache]
        dsimp only
        split
        · rfl
        · split
          · rfl
          · exact hloop cfg.retryAttempts 1
  refine ⟨hdl, by rw [hdl]; rfl, ?_⟩
  rw [hdl]
  by_cases hr : item.retries < (processItemStart now mgr item).config.retryAttempts
  · rw [processItemFinish_retry now (processItemStart now mgr item) item err hr]
    show (((mapSet mgr.states item.messageId
      ⟨.downloading, now, item.messageId, none⟩).lookup item.messageId).all
      stateNotDownloaded) = true
    rw [lookup_mapSet_self]
    rfl
  · rw [processItemFinish_exhausted now (processItemStart now mgr item) item err hr]
    show (((mapSet (processItemStart now mgr item).states item.messageId
      ⟨.error, now, item.messageId, some err⟩).lookup item.messageId).all
      stateNotDownloaded) = true
    rw [lookup_mapSet_self]
    rfl

/-- Witness for `c4_integrity_gate`: the declared hash is `"HASH"` but every
fetched payload digests to `"H"`, so nothing is persisted and the state is
not Downloaded. -/
theorem c4_integrity_gate_witness :
    dlDownloadMedia dlCfgC4 hashC4 [] rdImg oracleC4 0 = none
    ∧ managerDownloadMedia (dlDownloadMedia dlCfgC4 hashC4 [] rdImg oracleC4 0) "p"
        = (false, [])
    ∧ (((processItemFinish 0 (processItemStart 0 mgrC3 itemC3) itemC3
        (dlDownloadMedia dlCfgC4 hashC4 [] rdImg oracleC4 0) "mismatch").1.states.lookup
        itemC3.messageId).all stateNotDownloaded) = true :=
  c4_integrity_gate dlCfgC4 hashC4 rdImg oracleC4 0 mgrC3 itemC3 "mismatch" "p"
    rfl (by decide) (fun a media h => by show ("H" : String) ≠ "HASH"; decide)

-- C6: deduplication cache bounds

theorem lookup_eq_none_of_keys {α : Type} (l : List (String × α)) (k : String)
    (h : ∀ p ∈ l, p.1 ≠ k) : l.lookup k = none := by
  induction l with
  | nil => rfl
  | cons p t ih =>
      rcases p with ⟨a, b⟩
      rw [lookup_cons_eq_if]
      have ha : ¬ k = a := fun hc => h (a, b) (List.mem_cons_self _ _) hc.symm
      rw [if_neg ha]
      exact ih (fun q hq => h q (List.mem_cons_of_mem _ hq))

theorem fpKey_ne_empty (i : Nat) : fpKey i ≠ "" := by
  intro hcon
  have h2 : List.replicate (i + 1) 'k' = [] := congrArg String.data hcon
  simp at h2

theorem fpKey_inj (i j : Nat) (h : fpKey i = fpKey j) : i = j := by
  have h2 : List.replicate (i + 1) 'k' = List.replicate (j + 1) 'k' :=
    congrArg String.data h
  have h3 := congrArg List.length h2
  simp at h3
  omega

theorem fpKey_spec (i : Nat) : generateDeduplicationKey (fpRaw i) = fpKey i := by
  simp [generateDeduplicationKey, fpRaw, jsOr, truthyS, fpKey_ne_empty i,
    String.intercalate, String.intercalate.go]

theorem insertUpTo_spec (n : Nat) :
    (insertUpTo n).states = []
    ∧ (insertUpTo n).deduplicationCache
        = (List.range n).map (fun i => (fpKey i, "m")) := by
  induction n with
  | zero => exact ⟨rfl, rfl⟩
  | succ n ih =>
      have hnone : ((List.range n).map (fun i => (fpKey i, "m"))).lookup (fpKey n)
          = none := by
        refine lookup_eq_none_of_keys _ _ ?_
        intro p hp
        obtain ⟨i, hi, hpi⟩ := List.mem_map.mp hp
        rw [← hpi]
        intro hcon
        have hij := fpKey_inj i n hcon
        have hlt := List.mem_range.mp hi
        omega
      have hs1 : (insertUpTo n).states.lookup "m" = none := by
        rw [ih.1]
        rfl
      have hc : ((insertUpTo n).deduplicationCache.lookup
          (generateDeduplicationKey (fpRaw n))) = none := by
        rw [fpKey_spec n, ih.2]
        exact hnone
      have hdup : insertUpTo (n + 1)
          = { insertUpTo n with
              deduplicationCache := mapSet (insertUpTo n).deduplicationCache
                (generateDeduplicationKey (fpRaw n)) "m" } := by
        show (isDuplicate (insertUpTo n) "m" (fpRaw n)).2 = _
        unfold isDuplicate
        rw [hs1]
        simp only [Option.isSome_none, Bool.false_eq_true, if_false]
        rw [hc]
        simp only [Option.isSome_none, Bool.false_eq_true, if_false]
      rw [hdup]
      refine ⟨ih.1, ?_⟩
      show mapSet (insertUpTo n).deduplicationCache
        (generateDeduplicationKey (fpRaw n)) "m"
        = (List.range (n + 1)).map (fun i => (fpKey i, "m"))
      rw [fpKey_spec n, ih.2, mapSet_of_none _ _ _ hnone, List.range_succ]
      simp

theorem cacheResultGen_no_evict (bound : Nat) (cache : List (String × Media))
    (k : String) (media : Media) (hk : cache.lookup k = none)
    (hlen : cache.length < bound) :
    cacheResultGen bound cache k media = cache ++ [(k, media)] := by
  unfold cacheResultGen
  rw [mapSet_of_none _ _ _ hk]
  rw [if_neg (by simp; omega)]

theorem mapDelete_cons_self {α : Type} (a : String) (b : α) (t : List (String × α)) :
    mapDelete ((a, b) :: t) a = mapDelete t a := by
  unfold mapDelete
  rw [List.filter_cons]
  simp

theorem mapDelete_eq_self {α : Type} (l : List (String × α)) (a : String)
    (h : ∀ p ∈ l, p.1 ≠ a) : mapDelete l a = l := by
  unfold mapDelete
  apply List.filter_eq_self.mpr
  intro q hq
  simpa using h q hq

theorem cacheResultGen_evict_oldest (bound : Nat) (cache : List (String × Media))
    (k : String) (media : Media) (hk : cache.lookup k = none)
    (hnd : (cache.map Prod.fst).Nodup) (hlen : cache.length = bound)
    (hb : 1 ≤ bound) :
    cacheResultGen bound cache k media = cache.tail ++ [(k, media)] := by
  unfold cacheResultGen
  rw [mapSet_of_none _ _ _ hk]
  rw [if_pos (by simp; omega)]
  cases cache with
  | nil => simp at hlen; omega
  | cons p t =>
      rcases p with ⟨a, b⟩
      have hka : ¬ k = a := by
        rw [lookup_cons_eq_if] at hk
        by_cases h : k = a
        · rw [if_pos h] at hk
          exact absurd hk (by simp)
        · exact h
      simp only [List.cons_append, List.head?_cons]
      show mapDelete ((a, b) :: (t ++ [(k, media)])) a = t ++ [(k, media)]
      rw [mapDelete_cons_self]
      apply mapDelete_eq_self
      intro q hq
      rcases List.mem_append.mp hq with hq1 | hq2
      · simp only [List.map_cons, List.nodup_cons] at hnd
        intro hcon
        exact hnd.1 (List.mem_map.mpr ⟨q, hq1, hcon⟩)
      · simp only [List.mem_singleton] at hq2
        rw [hq2]
        exact hka

/-- C6 (amended): the manager's fingerprint→identity deduplication cache has
no size bound — `n` distinct fingerprints produce `n` cache entries for
every `n`, with no eviction (entries are removed only by `cleanup`).  The
bounded structure is the downloader's internal download-result cache, whose
bound is the hard-coded literal 1000 (not a configured value): when an
insertion makes it exceed the bound, exactly the single oldest entry by
insertion order is evicted (the cache is never consulted on access order),
and eviction touches no ItemState entry. -/
theorem c6_dedup_cache_amended :
    (∀ n, (insertUpTo n).deduplicationCache.length = n ∧ (insertUpTo n).states = [])
    ∧ (∀ (bound : Nat) (cache : List (String × Media)) (k : String) (media : Media),
        cache.lookup k = none →
        (cache.length < bound →
          cacheResultGen bound cache k media = cache ++ [(k, media)])
        ∧ ((cache.map Prod.fst).Nodup → cache.length = bound → 1 ≤ bound →
          cacheResultGen bound cache k media = cache.tail ++ [(k, media)]
          ∧ (cacheResultGen bound cache k media).length = bound))
    ∧ cacheResult = cacheResultGen 1000 := by
  refine ⟨?_, ?_, rfl⟩
  · intro n
    obtain ⟨h1, h2⟩ := insertUpTo_spec n
    refine ⟨?_, h1⟩
    rw [h2]
    simp
  · intro bound cache k media hk
    refine ⟨fun hlt => cacheResultGen_no_evict bound cache k media hk hlt,
      fun hnd hlen hb => ?_⟩
    have he := cacheResultGen_evict_oldest bound cache k media hk hnd hlen hb
    refine ⟨he, ?_⟩
    rw [he]
    cases cache with
    | nil => simp at hlen; omega
    | cons p t =>
        simp at hlen ⊢
        omega

/-- Witness for `c6_dedup_cache_amended`: two distinct fingerprints yield a
cache of size 2 in the unbounded manager cache; with the generalized bound
set to 1, inserting a second entry into the downloader cache evicts exactly
the oldest one. -/
theorem c6_dedup_cache_amended_witness :
    (insertUpTo 2).deduplicationCache.length = 2
    ∧ (insertUpTo 2).states = []
    ∧ cacheResultGen 1 [("a", mediaJpg)] "b" mediaJpg = [("b", mediaJpg)]
    ∧ (cacheResultGen 1 [("a", mediaJpg)] "b" mediaJpg).length = 1
    ∧ cacheResult = cacheResultGen 1000 := by
  obtain ⟨h1, h2, h3⟩ := c6_dedup_cache_amended
  have hb := (h2 1 [("a", mediaJpg)] "b" mediaJpg (by decide)).2 (by decide) (by decide)
    (by decide)
  exact ⟨(h1 2).1, (h1 2).2, hb.1, hb.2, h3⟩

/-- C6 counterexample: the manager's deduplication cache exceeds 1000 — the
only entry bound appearing anywhere in the source (the downloader's
hard-coded cache limit; no configured maximum exists for the manager's
cache) — after 1001 distinct fingerprints, so the claim that "the
deduplication cache never exceeds its configured maximum entry count" fails
for the fingerprint→identity cache. -/
theorem c6_unbounded_cache_counterexample :
    (insertUpTo 1001).deduplicationCache.length = 1001 ∧ 1000 < 1001 := by
  refine ⟨?_, by omega⟩
  obtain ⟨_, h2⟩ := insertUpTo_spec 1001
  rw [h2]
  simp

/-- C7 failing input: the state entry for `m1` is terminal (Error) and older
than the retention window, and the deduplication cache maps the fingerprint
`"key1|HASH|5"` to `m1`.  `cleanup` removes the state entry but calls
`deduplicationCache.delete(messageId)` with the message id `"m1"`, which is
not a key of the fingerprint-keyed cache — the fingerprint entry survives,
and a subsequent event with the same content (fingerprint) is still
answered as deduplicated instead of being admitted again. -/
theorem c7_cleanup_keeps_fingerprint :
    (cleanup 1000 mgrC7).states = []
    ∧ (cleanup 1000 mgrC7).deduplicationCache = [("key1|HASH|5", "m1")]
    ∧ generateDeduplicationKey rdImg = "key1|HASH|5"
    ∧ (maybeEnrich 1000 (cleanup 1000 mgrC7) { rdImg with msgId := some "m2" }).1
        = .deduplicated
    ∧ (maybeEnrich 1000 (cleanup 1000 mgrC7) { rdImg with msgId := some "m2" }).2
        = cleanup 1000 mgrC7 := by
  decide

-- C8: idempotent admission per identity

/-- C8: with deduplication enabled (the default), submitting an event whose
LogicalIdentity already has a recorded ItemState in Pending or Downloading
is a complete no-op on the manager: no second QueueItem is created and the
queue, state map, deduplication cache and breaker are all exactly as before
the submission. -/
theorem c8_idempotent_admission (now : Nat) (m : Manager) (rd : RawData)
    (msgId : String) (st : ItemState)
    (hd : m.config.enableDeduplication = true)
    (hid : getMessageId rd = some msgId)
    (hst : m.states.lookup msgId = some st)
    (hps : st.state = .pending ∨ st.state = .downloading) :
    (maybeEnrich now m rd).2 = m := by
  have hgd : (getMessageId rd).getD "" = msgId := by
    rw [hid]
    rfl
  have hdup : isDuplicate m ((getMessageId rd).getD "") rd = (true, m) := by
    unfold isDuplicate
    rw [hgd, hst]
    rfl
  unfold maybeEnrich
  split_ifs <;>
    first
      | rfl
      | (exact absurd hd (by assumption))
      | (dsimp only
         split_ifs <;> simp_all [hdup])

/-- Witness for `c8_idempotent_admission`: resubmitting `rdImg` while `m1`
is Pending leaves the manager unchanged. -/
theorem c8_idempotent_admission_witness : (maybeEnrich 7 mgrC8 rdImg).2 = mgrC8 :=
  c8_idempotent_admission 7 mgrC8 rdImg "m1" ⟨.pending, 0, "m1", none⟩ rfl rfl
    (by decide) (Or.inl rfl)

-- C9: the deferred retry re-insertion bypasses the admission checks

/-- C9: the `setTimeout` callback of the retry path pushes the item straight
onto the queue — no `maxQueueSize` check and no circuit-breaker check — so
when the queue is already at (or beyond) its bound, the re-insertion makes
the queue length exceed `maxQueueSize`, even though `_enqueue` at the very
same state would have returned `false` and dropped the item. -/
theorem c9_retry_bypasses_bounds (m : Manager) (item : QueueItem) (now : Nat)
    (hfull : m.config.maxQueueSize ≤ m.queue.length) :
    (fireRetry m item).queue = m.queue ++ [item]
    ∧ (fireRetry m item).circuitBreaker = m.circuitBreaker
    ∧ m.config.maxQueueSize < (fireRetry m item).queue.length
    ∧ enqueue now m item = (false, m) := by
  refine ⟨rfl, rfl, ?_, ?_⟩
  · show m.config.maxQueueSize < (m.queue ++ [item]).length
    simp
    omega
  · unfold enqueue
    rw [if_pos hfull]

/-- Witness for `c9_retry_bypasses_bounds` with the queue at its (zero)
bound. -/
theorem c9_retry_bypasses_bounds_witness :
    (fireRetry mgrC9 itemC1).queue = mgrC9.queue ++ [itemC1]
    ∧ (fireRetry mgrC9 itemC1).circuitBreaker = mgrC9.circuitBreaker
    ∧ mgrC9.config.maxQueueSize < (fireRetry mgrC9 itemC1).queue.length
    ∧ enqueue 3 mgrC9 itemC1 = (false, mgrC9) :=
  c9_retry_bypasses_bounds mgrC9 itemC1 3 (by decide)

theorem poisoned_config (m : Manager) (rd : RawData) :
    (poisoned m rd).config = m.config := rfl

/-- C10: the duplicate check inserts the fingerprint→identity entry before
`_enqueue` runs; when the event passes admission and the duplicate check but
the enqueue is refused — because the queue is at its bound, or because the
breaker is Open with the reset interval not yet elapsed — the call returns
the event untouched, the queue and state map are unchanged (no download was
queued), yet the fingerprint entry stays in the cache, and every subsequent
admissible event with the same fingerprint is answered
`{downloaded:false, deduplicated:true}` with the manager again unchanged. -/
theorem c10_failed_enqueue_poisons_cache (now now2 : Nat) (m : Manager)
    (rd rd2 : RawData)
    (hg : passesGate m.config rd = true)
    (hg2 : passesGate m.config rd2 = true)
    (hd : m.config.enableDeduplication = true)
    (hs : m.states.lookup ((getMessageId rd).getD "") = none)
    (hc : m.deduplicationCache.lookup (generateDeduplicationKey rd) = none)
    (hblock : m.config.maxQueueSize ≤ m.queue.length
      ∨ (m.circuitBreaker.state = .open'
        ∧ now - m.circuitBreaker.lastFailureTime < m.config.circuitBreakerResetMs))
    (hfp : generateDeduplicationKey rd2 = generateDeduplicationKey rd) :
    maybeEnrich now m rd = (.untouched, poisoned m rd)
    ∧ (poisoned m rd).queue = m.queue
    ∧ (poisoned m rd).states = m.states
    ∧ maybeEnrich now2 (poisoned m rd) rd2 = (.deduplicated, poisoned m rd) := by
  obtain ⟨hEn, hTy, hVT, hVS, hVM, hPtr, hMid⟩ :
      m.config.enabled = true
      ∧ truthyS (jsOr (jsOr rd.type rd.mediaType) rd.mimetype) = true
      ∧ validateMediaType m.config
          ((jsOr (jsOr rd.type rd.mediaType) rd.mimetype).getD "") = true
      ∧ validateFileSize m.config rd.size = true
      ∧ validateMimeType m.config rd.mimetype = true
      ∧ hasMediaPointer rd = true
      ∧ truthyS (getMessageId rd) = true := by
    simpa [passesGate, Bool.and_eq_true, and_assoc] using hg
  obtain ⟨hEn2, hTy2, hVT2, hVS2, hVM2, hPtr2, hMid2⟩ :
      m.config.enabled = true
      ∧ truthyS (jsOr (jsOr rd2.type rd2.mediaType) rd2.mimetype) = true
      ∧ validateMediaType m.config
          ((jsOr (jsOr rd2.type rd2.mediaType) rd2.mimetype).getD "") = true
      ∧ validateFileSize m.config rd2.size = true
      ∧ validateMimeType m.config rd2.mimetype = true
      ∧ hasMediaPointer rd2 = true
      ∧ truthyS (getMessageId rd2) = true := by
    simpa [passesGate, Bool.and_eq_true, and_assoc] using hg2
  have hdup1 : isDuplicate m ((getMessageId rd).getD "") rd
      = (false, poisoned m rd) := by
    unfold isDuplicate poisoned
    rw [hs]
    simp only [Option.isSome_none, Bool.false_eq_true, if_false]
    rw [hc]
    simp only [Option.isSome_none, Bool.false_eq_true, if_false]
  have henq : enqueue now (poisoned m rd) ⟨(getMessageId rd).getD "", rd, now, 0⟩
      = (false, poisoned m rd) := by
    unfold enqueue
    rcases hblock with hfull | ⟨hopen, hnotel⟩
    · rw [if_pos (show (poisoned m rd).config.maxQueueSize
        ≤ (poisoned m rd).queue.length from hfull)]
    · by_cases hq : (poisoned m rd).config.maxQueueSize
        ≤ (poisoned m rd).queue.length
      · rw [if_pos hq]
      · rw [if_neg hq, checkCircuitBreaker_open_denied now (poisoned m rd).config
          (poisoned m rd).circuitBreaker
          (show (poisoned m rd).circuitBreaker.state = .open' from hopen)
          (show now - (poisoned m rd).circuitBreaker.lastFailureTime
            < (poisoned m rd).config.circuitBreakerResetMs from hnotel)]
        rfl
  have h1 : maybeEnrich now m rd = (.untouched, poisoned m rd) := by
    simp only [maybeEnrich, hEn, hTy, hVT, hVS, hVM, hPtr, hMid, hd,
      Bool.not_true, Bool.false_eq_true, if_false, if_true, hdup1, henq]
  have hdup2 : isDuplicate (poisoned m rd) ((getMessageId rd2).getD "") rd2
      = (true, poisoned m rd) := by
    unfold isDuplicate
    cases hms : (poisoned m rd).states.lookup ((getMessageId rd2).getD "") with
    | some st => simp [hms]
    | none =>
        simp only [hms, Option.isSome_none, Bool.false_eq_true, if_false]
        rw [hfp]
        rw [show (poisoned m rd).deduplicationCache
          = mapSet m.deduplicationCache (generateDeduplicationKey rd)
            ((getMessageId rd).getD "") from rfl]
        rw [lookup_mapSet_self]
        simp
  have h2 : maybeEnrich now2 (poisoned m rd) rd2
      = (.deduplicated, poisoned m rd) := by
    simp only [maybeEnrich, poisoned_config, hEn2, hTy2, hVT2, hVS2, hVM2, hPtr2,
      hMid2, hd, Bool.not_true, Bool.false_eq_true, if_false, if_true, hdup2]
  exact ⟨h1, rfl, rfl, h2⟩

/-- Witness for `c10_failed_enqueue_poisons_cache`, exercising both refusal
paths: with `maxQueueSize = 0` the enqueue is refused on the queue bound
(`mgrC10`); with an Open breaker whose reset interval has not elapsed the
enqueue is refused by the breaker (`mgrC10open`).  In both cases the
fingerprint stays cached and the follow-up event with the same content is
answered as deduplicated. -/
theorem c10_failed_enqueue_poisons_cache_witness :
    (maybeEnrich 1 mgrC10 rdImg = (.untouched, poisoned mgrC10 rdImg)
      ∧ (poisoned mgrC10 rdImg).queue = mgrC10.queue
      ∧ (poisoned mgrC10 rdImg).states = mgrC10.states
      ∧ maybeEnrich 2 (poisoned mgrC10 rdImg) rdC10b
          = (.deduplicated, poisoned mgrC10 rdImg))
    ∧ (maybeEnrich 5 mgrC10open rdImg = (.untouched, poisoned mgrC10open rdImg)
      ∧ (poisoned mgrC10open rdImg).queue = mgrC10open.queue
      ∧ (poisoned mgrC10open rdImg).states = mgrC10open.states
      ∧ maybeEnrich 6 (poisoned mgrC10open rdImg) rdC10b
          = (.deduplicated, poisoned mgrC10open rdImg)) :=
  ⟨c10_failed_enqueue_poisons_cache 1 2 mgrC10 rdImg rdC10b (by decide) (by decide)
      rfl (by decide) (by decide) (Or.inl (by decide)) (by decide),
    c10_failed_enqueue_poisons_cache 5 6 mgrC10open rdImg rdC10b (by decide)
      (by decide) rfl (by decide) (by decide) (Or.inr (by decide)) (by decide)⟩
